import Mathlib

/-
  Verification of the MERN blog/forum server (Express + Mongoose teaching app).

  Shallow embedding of the server-side logic relevant to the spec:
  * `src/server/src/utils/validation.js`  (validatePagination, sanitizeInput, validateSearchQuery)
  * `src/server/src/utils/auth.js`        (generateToken, isTokenExpired)
  * `src/server/src/models/Post.js`       (toggleLike, incrementViews)
  * posts routes (list, get-by-id, update, delete, like)
  * users routes (delete with cascade, posts-by-author query)

  JavaScript numbers that matter here are integers (page/limit, view counts,
  Unix timestamps), so they are modelled as `Int`/`Nat`.  Mongoose documents
  are modelled as Lean structures; the document store is a Lean list and an
  update is an explicit store-to-store function.
-/

namespace MernBlog

/-! ## JavaScript scalar values reaching the validation utilities

`req.query` parameters arrive as strings or are absent (`undefined`); the unit
tests additionally call `validatePagination` with raw numbers.  `jsParseInt`
models JavaScript `parseInt` on these values, with `none` standing for `NaN`. -/

inductive JSVal where
  | num (n : Int)
  | str (s : String)
  | undef
  deriving Repr, DecidableEq

/-- Leading decimal-digit run of a character list, as a natural number;
`none` when the list does not start with a digit. -/
def parseDigits : List Char → Option Nat
  | [] => none
  | c :: cs =>
    if c.isDigit then
      some (parseDigitsAux (c.toNat - 48) cs)
    else
      none
where
  parseDigitsAux (acc : Nat) : List Char → Nat
    | [] => acc
    | c :: cs => if c.isDigit then parseDigitsAux (acc * 10 + (c.toNat - 48)) cs else acc

/-- JavaScript `parseInt` on a string: skip leading whitespace, optional sign,
then a leading digit run; `NaN` (here `none`) if no digit follows. -/
def jsParseIntStr (s : String) : Option Int :=
  match s.data.dropWhile (fun c => c.isWhitespace) with
  | '-' :: rest => (parseDigits rest).map (fun n => -(n : Int))
  | '+' :: rest => (parseDigits rest).map (fun n => (n : Int))
  | rest => (parseDigits rest).map (fun n => (n : Int))

/-- JavaScript `parseInt` on the values that reach `validatePagination`:
an integer number parses to itself, `undefined` parses to `NaN`. -/
def jsParseInt : JSVal → Option Int
  | .num n => some n
  | .str s => jsParseIntStr s
  | .undef => none

/-- JavaScript `x || d` after `parseInt`: both `NaN` and `0` are falsy and are
replaced by the default. -/
def orFalsy (x : Option Int) (d : Int) : Int :=
  match x with
  | none => d
  | some v => if v = 0 then d else v

structure Pagination where
  page : Int
  limit : Int
  deriving Repr, DecidableEq

/-- Embedding of `validatePagination(page, limit)` from
`src/server/src/utils/validation.js` (lines 110-123):

```js
const pageNum = parseInt(page) || 1;
const limitNum = parseInt(limit) || 10;
if (pageNum < 1) throw new Error('Page number must be greater than 0');
if (limitNum < 1 || limitNum > 100) throw new Error('Limit must be between 1 and 100');
return { page: pageNum, limit: limitNum };
```
-/
def validatePagination (page limit : JSVal) : Except String Pagination :=
  let pageNum := orFalsy (jsParseInt page) 1
  let limitNum := orFalsy (jsParseInt limit) 10
  if pageNum < 1 then
    .error "Page number must be greater than 0"
  else if limitNum < 1 ∨ limitNum > 100 then
    .error "Limit must be between 1 and 100"
  else
    .ok ⟨pageNum, limitNum⟩

/-! ## sanitizeInput (`src/server/src/utils/validation.js`, lines 60-79)

`sanitizeInput` recurses over a JSON-like request body.  The JavaScript value
universe reaching it is modelled by `JVal`; the branch conditions in the source
are `typeof data === 'string'` and `typeof data === 'object' && data !== null`
— note that a JavaScript array satisfies the latter, and `Object.entries` on an
array yields index-keyed string pairs, so the object branch rebuilds an array
as a plain object. -/

inductive JVal where
  | jstr (s : String)
  | jnum (n : Int)
  | jbool (b : Bool)
  | jnull
  | jundef
  | jarr (elems : List JVal)
  | jobj (fields : List (String × JVal))

/-- Characters removed by `.replace(/[<>]/g, '')`. -/
def removeAngles (s : String) : String :=
  ⟨s.data.filter (fun c => c ≠ '<' ∧ c ≠ '>')⟩

/-- Case-insensitive comparison of a character against a lowercase pattern
character, as the `i` regex flag does for ASCII. -/
def charCI (pat c : Char) : Bool :=
  c.toLower = pat

/-- Does the character list start with the given lowercase pattern,
case-insensitively? -/
def startsWithCI : List Char → List Char → Bool
  | [], _ => true
  | _ :: _, [] => false
  | p :: ps, c :: cs => charCI p c && startsWithCI ps cs

/-- One global-flag regex pass removing every occurrence of a fixed
case-insensitive literal pattern, left to right (models
`.replace(/javascript:/gi, '')`). -/
def removeLiteralCI (pat : List Char) (s : List Char) : List Char :=
  match s with
  | [] => []
  | c :: cs =>
    if h : startsWithCI pat (c :: cs) ∧ pat ≠ [] then
      removeLiteralCI pat ((c :: cs).drop pat.length)
    else
      c :: removeLiteralCI pat cs
termination_by s.length
decreasing_by
  · simp only [List.length_drop]
    have : 0 < pat.length := List.length_pos.mpr h.2
    simp only [List.length_cons]
    omega
  · simp

/-- JavaScript `\w` (ASCII word character). -/
def isWordChar (c : Char) : Bool :=
  c.isAlphanum || c = '_'

/-- Attempt to match `/on\w+=/i` at the head of the list: `on`
(case-insensitive), one or more word characters, then `=`.  Returns the length
of the match.  Because `=` is not a word character, greedy `\w+` with
backtracking matches exactly the maximal word-character run followed by `=`. -/
def matchEventHandlerLen (s : List Char) : Option Nat :=
  match s with
  | o :: n :: rest =>
    if charCI 'o' o && charCI 'n' n then
      if (rest.takeWhile isWordChar).length > 0 &&
         (rest.drop (rest.takeWhile isWordChar).length).headD ' ' = '=' then
        some (2 + (rest.takeWhile isWordChar).length + 1)
      else none
    else none
  | _ => none

/-- One global-flag pass of `.replace(/on\w+=/gi, '')`: at each position, if
the event-handler pattern matches, its characters are removed and scanning
resumes after the match; otherwise scanning advances one character. -/
def removeEventHandlers (s : List Char) : List Char :=
  match s with
  | [] => []
  | c :: cs =>
    match hm : matchEventHandlerLen (c :: cs) with
    | some k => removeEventHandlers ((c :: cs).drop k)
    | none => c :: removeEventHandlers cs
termination_by s.length
decreasing_by
  · have hk : 0 < k := by
      unfold matchEventHandlerLen at hm
      split at hm
      · split at hm
        · split at hm
          · cases hm; omega
          · exact absurd hm (by simp)
        · exact absurd hm (by simp)
      · exact absurd hm (by simp)
    simp only [List.length_drop, List.length_cons]
    omega
  · simp

/-- Case-insensitive search for the first occurrence of a literal pattern;
returns the index of the match start. -/
def findCI (pat : List Char) : List Char → Option Nat
  | [] => if pat = [] then some 0 else none
  | c :: cs =>
    if startsWithCI pat (c :: cs) then some 0
    else (findCI pat cs).map (· + 1)

/-- One global-flag pass of
`.replace(/<script\b[^<]*(?:(?!<\/script>)<[^<]*)*<\/script>/gi, '')`:
at a position starting with `<script` followed by a non-word character (the
`\b`), the body matches everything up to and including the first subsequent
`</script>`; otherwise scanning advances one character.  (In the sanitizer
pipeline this pass runs after every `<` has been removed, so it never fires.) -/
def removeScriptBlocks (s : List Char) : List Char :=
  match s with
  | [] => []
  | c :: cs =>
    if startsWithCI "<script".data (c :: cs) &&
       !(((c :: cs).drop 7).headD ' ' |> isWordChar) then
      match hf : findCI "</script>".data ((c :: cs).drop 7) with
      | some i =>
        removeScriptBlocks (((c :: cs).drop 7).drop (i + 9))
      | none => c :: removeScriptBlocks cs
    else c :: removeScriptBlocks cs
termination_by s.length
decreasing_by
  · simp only [List.length_drop, List.length_cons]
    omega
  · simp
  · simp

/-- The string branch of `sanitizeInput`: trim, strip angle brackets, strip
`javascript:`, strip inline event-handler patterns, strip `<script>` blocks. -/
def sanitizeString (s : String) : String :=
  let t := (removeAngles s.trim).data
  let t := removeLiteralCI "javascript:".data t
  let t := removeEventHandlers t
  ⟨removeScriptBlocks t⟩

mutual

/-- Embedding of `sanitizeInput(data)`:

```js
if (typeof data === 'string') return data.trim().replace(...)...;
if (typeof data === 'object' && data !== null) {
  const sanitized = {};
  for (const [key, value] of Object.entries(data)) sanitized[key] = sanitizeInput(value);
  return sanitized;
}
return data;
```

For an array, `Object.entries` enumerates the elements with their decimal
indices as string keys, so the result is a plain (non-array) object.
Numbers, booleans, `null` and `undefined` fall through unchanged. -/
def sanitizeInput : JVal → JVal
  | .jstr s => .jstr (sanitizeString s)
  | .jarr elems =>
      .jobj ((sanitizeElems elems).enum.map (fun p => (toString p.1, p.2)))
  | .jobj fields => .jobj (sanitizeFields fields)
  | v => v

/-- The `Object.entries` loop of `sanitizeInput` specialised to an array:
each element is sanitized in order. -/
def sanitizeElems : List JVal → List JVal
  | [] => []
  | v :: vs => sanitizeInput v :: sanitizeElems vs

/-- The `Object.entries` loop of `sanitizeInput` on a plain object:
keys are kept, values are sanitized. -/
def sanitizeFields : List (String × JVal) → List (String × JVal)
  | [] => []
  | (k, v) :: fs => (k, sanitizeInput v) :: sanitizeFields fs

end

/-! ## Error envelope

`AppError(message, statusCode)` from `src/server/src/middleware/errorHandler.js`;
the central error handler maps a thrown `AppError` to its status code, and a
plain `Error` thrown by a utility (as in `validatePagination` or
`validateSearchQuery`) to status 500. -/

structure AppError where
  statusCode : Nat
  message : String
  deriving Repr, DecidableEq

/-! ## Users and tokens -/

/-- The user record fields consumed by the routes and token utilities
(`User` model: unique username/email, role `user`/`admin`, active flag). -/
structure User where
  uid : String
  username : String
  email : String
  role : String
  isActive : Bool
  deriving Repr, DecidableEq

/-- Claims carried by a session token, as produced by `generateToken` in
`src/server/src/utils/auth.js`: user id, email, username, role, issuer,
audience, and the timestamps `jwt.sign` adds (`iat`, and `exp` from
`expiresIn`).  `exp` is optional: `jwt.sign` without `expiresIn` emits no
expiry claim.  Times are Unix seconds. -/
structure Claims where
  userId : String
  email : String
  username : String
  role : String
  iss : String
  aud : String
  iat : Int
  exp : Option Int
  deriving Repr, DecidableEq

/-- A token string either parses to claims or is unparseable; `jwt.decode`
returns `null` (here `none`) for an unparseable token. -/
inductive Token where
  | parseable (c : Claims)
  | unparseable (raw : String)
  deriving Repr, DecidableEq

/-- `jwt.decode(token)` without verification. -/
def jwtDecode : Token → Option Claims
  | .parseable c => some c
  | .unparseable _ => none

/-- Embedding of `generateToken(user)` (`src/server/src/utils/auth.js`,
lines 8-28): signs `{userId, email, username, role}` with issuer
`mern-testing-app`, audience `mern-testing-users`, and expiry `now +
lifetime` seconds (`JWT_EXPIRES_IN`, default 7 days). -/
def generateToken (u : User) (now lifetime : Int) : Token :=
  .parseable
    { userId := u.uid
      email := u.email
      username := u.username
      role := u.role
      iss := "mern-testing-app"
      aud := "mern-testing-users"
      iat := now
      exp := some (now + lifetime) }

/-- Embedding of `isTokenExpired(token)` (`src/server/src/utils/auth.js`,
lines 119-132):

```js
const decoded = jwt.decode(token);
if (!decoded || !decoded.exp) return true;
const currentTime = Math.floor(Date.now() / 1000);
return decoded.exp < currentTime;
```

(The surrounding `try/catch` also returns `true` on error.)  `now` is the
current Unix time in seconds. -/
def isTokenExpired (t : Token) (now : Int) : Bool :=
  match jwtDecode t with
  | none => true
  | some decoded =>
    match decoded.exp with
    | none => true
    | some e => decide (e < now)

/-! ## Posts -/

/-- An embedded comment record of a post. -/
structure Comment where
  user : String
  content : String
  createdAt : Int
  deriving Repr, DecidableEq

/-- The post document (`src/server/src/models/Post.js`): author and category
are id references, `status` is one of `draft`/`published`/`archived`, `likes`
is the array of liking user ids, `createdAt` comes from `timestamps`. -/
structure Post where
  pid : String
  title : String
  content : String
  author : String
  category : String
  slug : String
  status : String
  tags : List String
  featured : Bool
  views : Nat
  likes : List String
  comments : List Comment
  createdAt : Int
  deriving Repr, DecidableEq

/-- Embedding of `postSchema.methods.toggleLike(userId)` (lines 131-141):

```js
const likeIndex = this.likes.indexOf(userId);
if (likeIndex > -1) this.likes.splice(likeIndex, 1);
else this.likes.push(userId);
```

`indexOf > -1` is membership, and `splice(indexOf(u), 1)` removes exactly the
first occurrence, which is `List.erase`. -/
def toggleLike (p : Post) (userId : String) : Post :=
  if userId ∈ p.likes then
    { p with likes := p.likes.erase userId }
  else
    { p with likes := p.likes ++ [userId] }

/-- Embedding of `postSchema.methods.incrementViews()` (lines 124-128):
`this.views += 1; return this.save()`. -/
def incrementViews (p : Post) : Post :=
  { p with views := p.views + 1 }

/-- Persisting a saved document: the store entry with the document's id is
replaced (post ids are unique in a Mongo collection). -/
def saveReplace (store : List Post) (p : Post) : List Post :=
  store.map (fun q => if q.pid = p.pid then p else q)

/-- `validator.isMongoId` / `isValidObjectId`: a 24-character hex string. -/
def isMongoId (s : String) : Bool :=
  s.length = 24 && s.data.all (fun c => c.isDigit || ('a' ≤ c && c ≤ 'f') || ('A' ≤ c && c ≤ 'F'))

/-- `validator.isInt`: the whole string is an optionally signed decimal
integer. -/
def isIntString (s : String) : Bool :=
  match s.data with
  | '-' :: ds => !ds.isEmpty && ds.all Char.isDigit
  | '+' :: ds => !ds.isEmpty && ds.all Char.isDigit
  | ds => !ds.isEmpty && ds.all Char.isDigit

/-- Embedding of `validateSearchQuery(query)`
(`src/server/src/utils/validation.js`, lines 126-141); an empty string is
falsy in JavaScript, so it fails the `!query` check. -/
def validateSearchQuery (q : String) : Except String String :=
  if q = "" then .error "Search query is required"
  else
    let trimmedQuery := q.trim
    if trimmedQuery.length < 2 then .error "Search query must be at least 2 characters long"
    else if trimmedQuery.length > 100 then .error "Search query cannot exceed 100 characters"
    else .ok trimmedQuery

/-- Is `pat` a contiguous substring of `hay`? -/
def containsSublist (pat : List Char) : List Char → Bool
  | [] => pat.isEmpty
  | c :: cs => pat.isPrefixOf (c :: cs) || containsSublist pat cs

/-- Case-insensitive substring test, modelling `$regex` with the `i` option on
a search term without regex metacharacters (the route feeds the user's search
text directly as a pattern; this model treats it literally). -/
def containsCI (pat hay : String) : Bool :=
  containsSublist (pat.data.map Char.toLower) (hay.data.map Char.toLower)

/-! ## GET /api/posts — list with filters (posts router, lines 232-291) -/

/-- The query parameters of the posts list route, as they arrive in
`req.query`: each is a string or absent. -/
structure PostsListQuery where
  page : Option String
  limit : Option String
  category : Option String
  search : Option String
  status : Option String
  deriving Repr, DecidableEq

def optToJS : Option String → JSVal
  | none => .undef
  | some s => .str s

/-- The express-validator chain of the list route: all five checks are
`.optional()`, so an absent parameter passes. -/
def postsListQueryValid (q : PostsListQuery) : Bool :=
  (match q.page with
   | none => true
   | some s => isIntString s && decide (1 ≤ (jsParseIntStr s).getD 0)) &&
  (match q.limit with
   | none => true
   | some s => isIntString s && decide (1 ≤ (jsParseIntStr s).getD 0) &&
       decide ((jsParseIntStr s).getD 0 ≤ 100)) &&
  (match q.category with
   | none => true
   | some s => isMongoId s) &&
  (match q.search with
   | none => true
   | some s => decide (2 ≤ s.length) && decide (s.length ≤ 100)) &&
  (match q.status with
   | none => true
   | some s => s = "draft" || s = "published" || s = "archived")

/-- The Mongo query built by the list handler: status filter (defaulting to
`published`), optional category filter, optional `$or` search over title,
content and tags.  `searchTerm` is the trimmed term from
`validateSearchQuery`. -/
def matchesListQuery (q : PostsListQuery) (searchTerm : Option String) (p : Post) : Bool :=
  p.status = q.status.getD "published" &&
  (match q.category with
   | none => true
   | some c => p.category = c) &&
  (match searchTerm with
   | none => true
   | some t => containsCI t p.title || containsCI t p.content ||
       p.tags.any (fun tag => containsCI t tag))

/-- `.sort({ createdAt: -1 })`: a stable sort by descending creation time. -/
def sortByCreatedAtDesc (l : List Post) : List Post :=
  l.insertionSort (fun a b => b.createdAt ≤ a.createdAt)

structure PageInfo where
  page : Int
  limit : Int
  total : Nat
  pages : Nat
  deriving Repr, DecidableEq

structure PostsListResponse where
  posts : List Post
  pagination : PageInfo
  deriving Repr, DecidableEq

/-- `Math.ceil(total / limitNum)` for a positive `limit`. -/
def ceilDiv (total : Nat) (limit : Int) : Nat :=
  (total + limit.toNat - 1) / limit.toNat

/-- The body of the list handler after search validation: pagination, filter,
sort, skip/take, and the response envelope.  A plain `Error` thrown by
`validatePagination` surfaces as a 500 through the central error handler. -/
def listPostsBody (store : List Post) (q : PostsListQuery) (searchTerm : Option String) :
    Except AppError PostsListResponse :=
  match validatePagination (optToJS q.page) (optToJS q.limit) with
  | .error m => .error ⟨500, m⟩
  | .ok pg =>
    let filtered := store.filter (matchesListQuery q searchTerm)
    let posts := ((sortByCreatedAtDesc filtered).drop (((pg.page - 1) * pg.limit).toNat)).take
      pg.limit.toNat
    .ok
      { posts := posts
        pagination :=
          { page := pg.page
            limit := pg.limit
            total := filtered.length
            pages := ceilDiv filtered.length pg.limit } }

/-- Embedding of `router.get('/')` of the posts router (lines 232-291).
`caller` is the result of any authentication: the route's middleware stack is
only the express-validator chain — there is no `auth`/`optionalAuth` — and the
handler body never consults a user, so `caller` is unused. -/
def listPostsRoute (store : List Post) (caller : Option User) (q : PostsListQuery) :
    Except AppError PostsListResponse :=
  if !postsListQueryValid q then .error ⟨400, "Validation failed"⟩
  else
    match q.search with
    | some s =>
      match validateSearchQuery s with
      | .error m => .error ⟨500, m⟩
      | .ok t => listPostsBody store q (some t)
    | none => listPostsBody store q none

/-! ## GET /api/posts/:id (posts router, lines 294-313) -/

/-- Embedding of `router.get('/:id')`: the validator chain is
`query('id').isMongoId()` — it checks `req.query.id` (not the path parameter)
and is not `.optional()`, so the request passes validation only when an `id`
query parameter holding a Mongo id is supplied.  The handler then looks up
`req.params.id`, 404s if absent, increments the view counter and saves. -/
def getPostByIdRoute (store : List Post) (paramId : String) (queryId : Option String) :
    (Except AppError Post) × List Post :=
  if !(match queryId with
       | none => false
       | some s => isMongoId s) then
    (.error ⟨400, "Validation failed"⟩, store)
  else
    match store.find? (fun p => p.pid = paramId) with
    | none => (.error ⟨404, "Post not found"⟩, store)
    | some post =>
      let post := incrementViews post
      (.ok post, saveReplace store post)

/-! ## PUT /api/posts/:id and DELETE /api/posts/:id (posts router, lines 406-504) -/

/-- The updatable fields of a post as parsed from the request body (all
optional in the PUT validator chain). -/
structure PostUpdates where
  title : Option String
  content : Option String
  category : Option String
  status : Option String
  tags : Option (List String)
  featured : Option Bool
  deriving Repr, DecidableEq

/-- The express-validator chain of the PUT route: every field `.optional()`,
with trimmed length bounds on title/content/tags, `isMongoId` on category and
an enum check on status. -/
def postUpdatesValid (u : PostUpdates) : Bool :=
  (match u.title with
   | none => true
   | some t => decide (3 ≤ t.trim.length) && decide (t.trim.length ≤ 200)) &&
  (match u.content with
   | none => true
   | some c => decide (10 ≤ c.trim.length) && decide (c.trim.length ≤ 10000)) &&
  (match u.category with
   | none => true
   | some c => isMongoId c) &&
  (match u.status with
   | none => true
   | some s => s = "draft" || s = "published" || s = "archived") &&
  (match u.tags with
   | none => true
   | some ts => ts.all (fun t => decide (t.trim.length ≤ 50)))

/-- `Object.assign(post, updates)`: present fields overwrite the post. -/
def applyUpdates (p : Post) (u : PostUpdates) : Post :=
  { p with
    title := u.title.getD p.title
    content := u.content.getD p.content
    category := u.category.getD p.category
    status := u.status.getD p.status
    tags := u.tags.getD p.tags
    featured := u.featured.getD p.featured }

/-- Replace each maximal run of characters satisfying `isRun` by the single
character `r` (one regex pass of `\s+` → `-`, or `-+` → `-`). -/
def collapseRuns (isRun : Char → Bool) (r : Char) (s : List Char) : List Char :=
  match s with
  | [] => []
  | c :: cs =>
    if isRun c then r :: collapseRuns isRun r (cs.dropWhile isRun)
    else c :: collapseRuns isRun r cs
termination_by s.length
decreasing_by
  · have := (List.dropWhile_sublist (l := cs) (p := isRun)).length_le
    simp only [List.length_cons]
    omega
  · simp

/-- The slug derivation of the `pre('save')` hook (Post model, lines 108-122):
lowercase the title, drop every character that is not a lowercase letter,
digit, whitespace or hyphen, replace each whitespace run by a hyphen, collapse
hyphen runs, then `.trim('-')` — JavaScript `String.prototype.trim` ignores
its argument and trims whitespace. -/
def slugify (title : String) : String :=
  let t := title.data.map Char.toLower
  let t := t.filter (fun c => ('a' ≤ c && c ≤ 'z') || c.isDigit || c.isWhitespace || c = '-')
  let t := collapseRuns Char.isWhitespace '-' t
  let t := collapseRuns (fun c => c = '-') '-' t
  (String.mk t).trim

/-- The `pre('save')` hook: the slug is regenerated iff the title field was
modified by this write. -/
def applySaveHook (titleModified : Bool) (p : Post) : Post :=
  if titleModified then { p with slug := slugify p.title } else p

/-- Embedding of `router.put('/:id')` (lines 406-481).  `caller` is the
authenticated user resolved by the `auth` middleware; `cats` is the set of
existing category ids (`Category.findById` existence check).  The ownership
check compares only `post.author` with the caller's id — the role is never
consulted:

```js
if (post.author.toString() !== req.user._id.toString())
  throw new AppError('You can only edit your own posts', 403);
```
-/
def putPost (store : List Post) (cats : List String) (caller : User) (id : String)
    (upd : PostUpdates) : (Except AppError Post) × List Post :=
  if !postUpdatesValid upd then (.error ⟨400, "Validation failed"⟩, store)
  else
    match store.find? (fun p => p.pid = id) with
    | none => (.error ⟨404, "Post not found"⟩, store)
    | some post =>
      if post.author ≠ caller.uid then
        (.error ⟨403, "You can only edit your own posts"⟩, store)
      else if upd.category.isSome && !(cats.contains (upd.category.getD "")) then
        (.error ⟨404, "Category not found"⟩, store)
      else
        let post := applySaveHook (upd.title.isSome && upd.title.getD "" ≠ post.title)
          (applyUpdates post upd)
        (.ok post, saveReplace store post)

/-- Embedding of `router.delete('/:id')` (lines 484-504): find, 404 if absent,
403 unless the caller is the author (again no admin exception), then
`findByIdAndDelete`. -/
def deletePost (store : List Post) (caller : User) (id : String) :
    (Except AppError String) × List Post :=
  match store.find? (fun p => p.pid = id) with
  | none => (.error ⟨404, "Post not found"⟩, store)
  | some post =>
    if post.author ≠ caller.uid then
      (.error ⟨403, "You can only delete your own posts"⟩, store)
    else
      (.ok "Post deleted successfully", store.filter (fun p => p.pid ≠ id))

/-- Embedding of `router.post('/:id/like')` (lines 507-523): find, 404 if
absent, toggle the caller's like and save. -/
def likePost (store : List Post) (caller : User) (id : String) :
    (Except AppError Nat) × List Post :=
  match store.find? (fun p => p.pid = id) with
  | none => (.error ⟨404, "Post not found"⟩, store)
  | some post =>
    let post := toggleLike post caller.uid
    (.ok post.likes.length, saveReplace store post)

/-! ## DELETE /api/users/:id with cascade, and the author listing
(users router, lines 211-235; posts router, lines 555-590) -/

/-- Embedding of `router.delete('/:id')` of the users router behind
`adminAuth`: 403 for a non-admin caller, 400 for self-deletion, 404 if the
target does not exist, otherwise `Post.deleteMany({author: id})` followed by
`User.findByIdAndDelete(id)`. -/
def deleteUserRoute (users : List User) (posts : List Post) (caller : User) (id : String) :
    (Except AppError String) × List User × List Post :=
  if caller.role ≠ "admin" then
    (.error ⟨403, "Access denied. Admin privileges required."⟩, users, posts)
  else if caller.uid = id then
    (.error ⟨400, "You cannot delete your own account"⟩, users, posts)
  else
    match users.find? (fun u => u.uid = id) with
    | none => (.error ⟨404, "User not found"⟩, users, posts)
    | some _ =>
      (.ok "User deleted successfully",
       users.filter (fun u => u.uid ≠ id),
       posts.filter (fun p => p.author ≠ id))

/-- Embedding of `router.get('/author/:authorId')` of the posts router:
optional page/limit validation, then the published posts of the author,
newest first, paginated. -/
def getPostsByAuthor (store : List Post) (authorId : String) (page limit : Option String) :
    Except AppError PostsListResponse :=
  if !((match page with
        | none => true
        | some s => isIntString s && decide (1 ≤ (jsParseIntStr s).getD 0)) &&
       (match limit with
        | none => true
        | some s => isIntString s && decide (1 ≤ (jsParseIntStr s).getD 0) &&
            decide ((jsParseIntStr s).getD 0 ≤ 100))) then
    .error ⟨400, "Validation failed"⟩
  else
    match validatePagination (optToJS page) (optToJS limit) with
    | .error m => .error ⟨500, m⟩
    | .ok pg =>
      let filtered := store.filter (fun p => p.author = authorId && p.status = "published")
      let posts := ((sortByCreatedAtDesc filtered).drop (((pg.page - 1) * pg.limit).toNat)).take
        pg.limit.toNat
      .ok
        { posts := posts
          pagination :=
            { page := pg.page
              limit := pg.limit
              total := filtered.length
              pages := ceilDiv filtered.length pg.limit } }

/-! ## Sample records used by concrete witnesses and counterexamples -/

/-- A regular (non-admin) user A. -/
def userA : User :=
  { uid := "aaaaaaaaaaaaaaaaaaaaaaaa"
    username := "usera"
    email := "usera@example.com"
    role := "user"
    isActive := true }

/-- A second regular user B, distinct from A. -/
def userB : User :=
  { uid := "bbbbbbbbbbbbbbbbbbbbbbbb"
    username := "userb"
    email := "userb@example.com"
    role := "user"
    isActive := true }

/-- An administrator, distinct from A and B. -/
def adminUser : User :=
  { uid := "cccccccccccccccccccccccc"
    username := "admin"
    email := "admin@example.com"
    role := "admin"
    isActive := true }

/-- A draft post authored by user A. -/
def draftPost : Post :=
  { pid := "dddddddddddddddddddddddd"
    title := "Draft Post"
    content := "Draft content here"
    author := "aaaaaaaaaaaaaaaaaaaaaaaa"
    category := "eeeeeeeeeeeeeeeeeeeeeeee"
    slug := "draft-post"
    status := "draft"
    tags := []
    featured := false
    views := 5
    likes := []
    comments := []
    createdAt := 100 }

/-- A published post authored by user A. -/
def pubPost : Post :=
  { pid := "ffffffffffffffffffffffff"
    title := "Published Post"
    content := "Published content here"
    author := "aaaaaaaaaaaaaaaaaaaaaaaa"
    category := "eeeeeeeeeeeeeeeeeeeeeeee"
    slug := "published-post"
    status := "published"
    tags := ["tech"]
    featured := false
    views := 10
    likes := []
    comments := []
    createdAt := 200 }

/-- An empty update payload (every PUT body field absent). -/
def noUpdates : PostUpdates :=
  { title := none, content := none, category := none, status := none
    tags := none, featured := none }

/-- Claims of a token signed without `expiresIn`: no `exp` claim. -/
def claimsNoExp : Claims :=
  { userId := "aaaaaaaaaaaaaaaaaaaaaaaa"
    email := "usera@example.com"
    username := "usera"
    role := "user"
    iss := "mern-testing-app"
    aud := "mern-testing-users"
    iat := 1700000000
    exp := none }

/-- Is the value a JavaScript array? -/
def isJArr : JVal → Bool
  | .jarr _ => true
  | _ => false

/-! ## Supporting lemmas -/

/-- The like list of a toggled post, by the two branches of `toggleLike`. -/
theorem toggleLike_likes (p : Post) (u : String) :
    (toggleLike p u).likes = if u ∈ p.likes then p.likes.erase u else p.likes ++ [u] := by
  unfold toggleLike
  split <;> rfl

theorem sanitizeElems_eq_map (xs : List JVal) : sanitizeElems xs = xs.map sanitizeInput := by
  induction xs with
  | nil => rfl
  | cons v vs ih => simp [sanitizeElems, ih]

/-- After `saveReplace store p2` where `p2` carries the id searched for and
some entry with that id existed, the lookup returns `p2`. -/
theorem find?_saveReplace (store : List Post) (p2 : Post) (id : String)
    (hid : p2.pid = id)
    (hsome : (store.find? (fun x => x.pid = id)).isSome = true) :
    (saveReplace store p2).find? (fun x => x.pid = id) = some p2 := by
  induction store with
  | nil => simp [List.find?] at hsome
  | cons q t ih =>
    simp only [saveReplace, List.map_cons]
    by_cases hq : q.pid = p2.pid
    · rw [if_pos hq]
      exact List.find?_cons_of_pos _ (by simp [hid])
    · have hq2 : ¬(q.pid = id) := fun h => hq (h.trans hid.symm)
      rw [if_neg hq, List.find?_cons_of_neg _ (by simp [hq2])]
      have hsome2 : (t.find? (fun x => x.pid = id)).isSome = true := by
        rw [List.find?_cons_of_neg _ (by simp [hq2])] at hsome
        exact hsome
      exact ih hsome2

/-- Posts surviving `deleteMany({author: id})` never match an author filter
for `id` again. -/
theorem filter_author_ne_published (posts : List Post) (id : String) :
    (posts.filter (fun p => p.author ≠ id)).filter
      (fun p => p.author = id && p.status = "published") = [] := by
  induction posts with
  | nil => rfl
  | cons q t ih =>
    by_cases hq : q.author = id
    · simp only [List.filter_cons]
      rw [if_neg (by simp [hq])]
      exact ih
    · simp only [List.filter_cons]
      rw [if_pos (by simp [hq]), List.filter_cons]
      rw [if_neg (by simp [hq])]
      exact ih

/-! ## Claim theorems -/

/-- C1: the claim states that a `GET /api/posts` request from an
unauthenticated caller with `status=draft` is rejected with 403 and returns no
draft posts.  The route has no authentication middleware and the handler
simply copies the requested status into the Mongo query, so on a store holding
one draft post the unauthenticated request succeeds with status 200 and
returns the draft — exhibiting the divergence (the repository's own
integration test expects the 403). -/
theorem listPostsRoute_draft_unauthenticated_ok :
    listPostsRoute [draftPost] none ⟨none, none, none, none, some "draft"⟩ =
      .ok ⟨[draftPost], ⟨1, 10, 1, 1⟩⟩ :=
  rfl

/-- C2: the claim states that an admin who is not the author may update or
delete a post (no 403).  The handlers compare only `post.author` with the
caller's id and never consult the role, so the admin is rejected with 403 on
both routes and the store is unchanged — exhibiting the divergence (the
repository's own integration tests expect the admin update/delete to
succeed). -/
theorem putDelete_admin_nonauthor_forbidden :
    putPost [pubPost] [] adminUser pubPost.pid noUpdates =
      (.error ⟨403, "You can only edit your own posts"⟩, [pubPost]) ∧
    deletePost [pubPost] adminUser pubPost.pid =
      (.error ⟨403, "You can only delete your own posts"⟩, [pubPost]) ∧
    adminUser.role = "admin" ∧
    decide (pubPost.author = adminUser.uid) = false :=
  ⟨rfl, rfl, rfl, by decide⟩

/-- C3: the claim states that `validatePagination` throws whenever `page < 1`
or `limit` lies outside `[1,100]`, and in particular on `(0, 10)`, `(1, 0)`
and `(1, 101)`.  Because the source computes `parseInt(page) || 1` and
`parseInt(limit) || 10`, a zero argument is falsy and silently becomes the
default, so `(0, 10)` and `(1, 0)` succeed with the defaults; only `(1, 101)`
throws — exhibiting the divergence (the repository's own unit tests expect
all three to throw). -/
theorem validatePagination_zero_inputs_pass :
    validatePagination (.num 0) (.num 10) = .ok ⟨1, 10⟩ ∧
    validatePagination (.num 1) (.num 0) = .ok ⟨1, 10⟩ ∧
    validatePagination (.num 1) (.num 101) = .error "Limit must be between 1 and 100" :=
  ⟨rfl, rfl, rfl⟩

/-- C4: a PUT `/posts/:id` by an authenticated caller who is neither the
post's author nor an admin (with a body that passes validation) is rejected
with 403 and the store is returned unchanged: the handler throws before any
assignment to the post. -/
theorem putPost_nonowner_rejected_unchanged (store : List Post) (cats : List String)
    (caller : User) (id : String) (upd : PostUpdates) (post : Post)
    (hval : postUpdatesValid upd = true)
    (hfind : store.find? (fun p => p.pid = id) = some post)
    (hrole : caller.role ≠ "admin")
    (hown : post.author ≠ caller.uid) :
    putPost store cats caller id upd =
      (.error ⟨403, "You can only edit your own posts"⟩, store) := by
  unfold putPost
  rw [hval, hfind]
  simp [hown]

theorem putPost_nonowner_rejected_unchanged_witness :
    putPost [pubPost] [] userB pubPost.pid noUpdates =
      (.error ⟨403, "You can only edit your own posts"⟩, [pubPost]) :=
  putPost_nonowner_rejected_unchanged [pubPost] [] userB pubPost.pid noUpdates pubPost
    rfl rfl (by decide) (by decide)

/-- C5: toggling a like twice in succession by the same user restores the
post's like set (as a multiset of user ids: removal happens by `splice` at the
found index and re-adding happens by `push`, so the list may be reordered but
the like set is unchanged), and a single toggle flips the user's membership.
The hypothesis states that the user occurs at most once in the like list —
the invariant of every like list the application builds, since posts are
created with an empty list and `toggleLike` is the only mutator. -/
theorem toggleLike_double_round_trip (p : Post) (u : String)
    (hset : p.likes.count u ≤ 1) :
    (toggleLike (toggleLike p u) u).likes.Perm p.likes ∧
    decide (u ∈ (toggleLike p u).likes) = !decide (u ∈ p.likes) := by
  by_cases hm : u ∈ p.likes
  · have h1 : (toggleLike p u).likes = p.likes.erase u := by
      rw [toggleLike_likes, if_pos hm]
    have hcount : p.likes.count u = 1 := by
      have := List.count_pos_iff.mpr hm
      omega
    have hnot : u ∉ p.likes.erase u := by
      rw [← List.count_pos_iff, List.count_erase_self]
      omega
    have h2 : (toggleLike (toggleLike p u) u).likes = p.likes.erase u ++ [u] := by
      rw [toggleLike_likes, h1, if_neg hnot]
    constructor
    · rw [h2]
      exact (List.perm_append_singleton u _).trans (List.perm_cons_erase hm).symm
    · rw [h1]
      simp [hnot, hm]
  · have h1 : (toggleLike p u).likes = p.likes ++ [u] := by
      rw [toggleLike_likes, if_neg hm]
    have hmem : u ∈ p.likes ++ [u] := by simp
    have h2 : (toggleLike (toggleLike p u) u).likes = p.likes := by
      rw [toggleLike_likes, h1, if_pos hmem, List.erase_append_right _ hm]
      simp
    constructor
    · rw [h2]
    · rw [h1]
      simp [hm]

theorem toggleLike_double_round_trip_witness :
    (toggleLike (toggleLike pubPost "bbbbbbbbbbbbbbbbbbbbbbbb")
        "bbbbbbbbbbbbbbbbbbbbbbbb").likes.Perm pubPost.likes ∧
    decide ("bbbbbbbbbbbbbbbbbbbbbbbb" ∈ (toggleLike pubPost "bbbbbbbbbbbbbbbbbbbbbbbb").likes) =
      !decide ("bbbbbbbbbbbbbbbbbbbbbbbb" ∈ pubPost.likes) :=
  toggleLike_double_round_trip pubPost "bbbbbbbbbbbbbbbbbbbbbbbb" (by decide)

/-- Evaluation of the author listing with default pagination, by unfolding. -/
theorem getPostsByAuthor_eval (store : List Post) (authorId : String) :
    getPostsByAuthor store authorId none none =
      .ok
        { posts := ((sortByCreatedAtDesc
              (store.filter (fun p => p.author = authorId && p.status = "published"))).drop
            0).take 10
          pagination :=
            { page := 1
              limit := 10
              total := (store.filter
                  (fun p => p.author = authorId && p.status = "published")).length
              pages := ceilDiv (store.filter
                  (fun p => p.author = authorId && p.status = "published")).length 10 } } :=
  rfl

/-- C6: an admin deleting another existing user succeeds, and the cascade
`Post.deleteMany({author: id})` removes every post authored by the target, so
the author listing (`GET /posts/author/:id`) afterwards returns an empty page:
zero posts, total 0. -/
theorem deleteUser_cascade_author_posts (users : List User) (posts : List Post)
    (caller : User) (id : String) (target : User)
    (hadmin : caller.role = "admin")
    (hself : caller.uid ≠ id)
    (hfind : users.find? (fun u => u.uid = id) = some target) :
    (deleteUserRoute users posts caller id).1 = .ok "User deleted successfully" ∧
    getPostsByAuthor (deleteUserRoute users posts caller id).2.2 id none none =
      .ok ⟨[], ⟨1, 10, 0, 0⟩⟩ := by
  have hroute : deleteUserRoute users posts caller id =
      (.ok "User deleted successfully",
       users.filter (fun u => u.uid ≠ id),
       posts.filter (fun p => p.author ≠ id)) := by
    unfold deleteUserRoute
    rw [if_neg (by simp [hadmin]), if_neg hself, hfind]
  rw [hroute]
  refine ⟨rfl, ?_⟩
  rw [getPostsByAuthor_eval, filter_author_ne_published]
  rfl

theorem deleteUser_cascade_author_posts_witness :
    (deleteUserRoute [userA, adminUser] [pubPost, draftPost] adminUser
        "aaaaaaaaaaaaaaaaaaaaaaaa").1 = .ok "User deleted successfully" ∧
    getPostsByAuthor (deleteUserRoute [userA, adminUser] [pubPost, draftPost] adminUser
        "aaaaaaaaaaaaaaaaaaaaaaaa").2.2 "aaaaaaaaaaaaaaaaaaaaaaaa" none none =
      .ok ⟨[], ⟨1, 10, 0, 0⟩⟩ :=
  deleteUser_cascade_author_posts [userA, adminUser] [pubPost, draftPost] adminUser
    "aaaaaaaaaaaaaaaaaaaaaaaa" userA rfl (by decide) (by decide)

/-- C7: `isTokenExpired` is fail-closed — `true` for any unparseable token
(`jwt.decode` returns null) and for any parseable token whose claims lack
`exp`; and `false` for a token freshly issued by `generateToken` with a
positive lifetime, checked at its issue time. -/
theorem isTokenExpired_fail_closed (raw : String) (c : Claims) (u : User)
    (now lifetime : Int) (hexp : c.exp = none) (hlife : 0 < lifetime) :
    isTokenExpired (.unparseable raw) now = true ∧
    isTokenExpired (.parseable c) now = true ∧
    isTokenExpired (generateToken u now lifetime) now = false := by
  refine ⟨rfl, ?_, ?_⟩
  · simp [isTokenExpired, jwtDecode, hexp]
  · simp only [isTokenExpired, jwtDecode, generateToken, decide_eq_false_iff_not]
    omega

theorem isTokenExpired_fail_closed_witness :
    isTokenExpired (.unparseable "not-a-token") 1700000000 = true ∧
    isTokenExpired (.parseable claimsNoExp) 1700000000 = true ∧
    isTokenExpired (generateToken userA 1700000000 604800) 1700000000 = false :=
  isTokenExpired_fail_closed "not-a-token" claimsNoExp userA 1700000000 604800 rfl (by decide)

/-- C8: each successful `GET /api/posts/:id` on an existing published post
returns the post and persists its view counter incremented by exactly 1, and
two sequential successful reads leave the stored counter at the original value
plus 2.  (For the request to pass the route's validator chain an `id` *query*
parameter holding a Mongo id must be supplied, because the chain checks
`query('id').isMongoId()` rather than the path parameter.) -/
theorem getPostById_two_reads_increment (store : List Post) (id qid : String) (p : Post)
    (hq : isMongoId qid = true)
    (hfind : store.find? (fun x => x.pid = id) = some p)
    (hpub : p.status = "published") :
    (getPostByIdRoute store id (some qid)).1 = .ok (incrementViews p) ∧
    ((getPostByIdRoute store id (some qid)).2.find? (fun x => x.pid = id)).map Post.views =
      some (p.views + 1) ∧
    (getPostByIdRoute (getPostByIdRoute store id (some qid)).2 id (some qid)).1 =
      .ok (incrementViews (incrementViews p)) ∧
    ((getPostByIdRoute (getPostByIdRoute store id (some qid)).2 id (some qid)).2.find?
        (fun x => x.pid = id)).map Post.views = some (p.views + 2) := by
  have hpid : p.pid = id := by
    have h := List.find?_some hfind
    simpa using h
  have h1 : getPostByIdRoute store id (some qid) =
      (.ok (incrementViews p), saveReplace store (incrementViews p)) := by
    unfold getPostByIdRoute
    rw [hfind]
    simp [hq]
  have hfind1 : (saveReplace store (incrementViews p)).find? (fun x => x.pid = id) =
      some (incrementViews p) :=
    find?_saveReplace store (incrementViews p) id hpid (by rw [hfind]; rfl)
  have h2 : getPostByIdRoute (saveReplace store (incrementViews p)) id (some qid) =
      (.ok (incrementViews (incrementViews p)),
       saveReplace (saveReplace store (incrementViews p))
         (incrementViews (incrementViews p))) := by
    unfold getPostByIdRoute
    rw [hfind1]
    simp [hq]
  have hfind2 : (saveReplace (saveReplace store (incrementViews p))
        (incrementViews (incrementViews p))).find? (fun x => x.pid = id) =
      some (incrementViews (incrementViews p)) :=
    find?_saveReplace _ _ id hpid (by rw [hfind1]; rfl)
  refine ⟨by rw [h1], ?_, ?_, ?_⟩
  · rw [h1]
    simp only [hfind1, Option.map_some']
    rfl
  · rw [h1]
    simp only [h2]
  · rw [h1]
    simp only [h2, hfind2, Option.map_some']
    rfl

theorem getPostById_two_reads_increment_witness :
    (getPostByIdRoute [pubPost] "ffffffffffffffffffffffff"
        (some "0123456789abcdef01234567")).1 = .ok (incrementViews pubPost) ∧
    ((getPostByIdRoute [pubPost] "ffffffffffffffffffffffff"
        (some "0123456789abcdef01234567")).2.find?
        (fun x => x.pid = "ffffffffffffffffffffffff")).map Post.views =
      some (pubPost.views + 1) ∧
    (getPostByIdRoute (getPostByIdRoute [pubPost] "ffffffffffffffffffffffff"
        (some "0123456789abcdef01234567")).2 "ffffffffffffffffffffffff"
        (some "0123456789abcdef01234567")).1 =
      .ok (incrementViews (incrementViews pubPost)) ∧
    ((getPostByIdRoute (getPostByIdRoute [pubPost] "ffffffffffffffffffffffff"
        (some "0123456789abcdef01234567")).2 "ffffffffffffffffffffffff"
        (some "0123456789abcdef01234567")).2.find?
        (fun x => x.pid = "ffffffffffffffffffffffff")).map Post.views =
      some (pubPost.views + 2) :=
  getPostById_two_reads_increment [pubPost] "ffffffffffffffffffffffff"
    "0123456789abcdef01234567" pubPost (by decide) (by decide) rfl

/-- C9: `validatePagination` is the identity on already-normalized integer
arguments — any `page ≥ 1` and `limit ∈ [1,100]` are returned unchanged — and
returns the defaults `{page: 1, limit: 10}` when both arguments are absent. -/
theorem validatePagination_idempotent_defaults (page limit : Int)
    (hp : 1 ≤ page) (hl1 : 1 ≤ limit) (hl2 : limit ≤ 100) :
    validatePagination (.num page) (.num limit) = .ok ⟨page, limit⟩ ∧
    validatePagination .undef .undef = .ok ⟨1, 10⟩ := by
  refine ⟨?_, rfl⟩
  have hp0 : ¬page = 0 := by omega
  have hl0 : ¬limit = 0 := by omega
  simp only [validatePagination, jsParseInt, orFalsy]
  rw [if_neg hp0, if_neg hl0, if_neg (by omega : ¬page < 1), if_neg (by push_neg; omega)]

theorem validatePagination_idempotent_defaults_witness :
    validatePagination (.num 3) (.num 25) = .ok ⟨3, 25⟩ ∧
    validatePagination .undef .undef = .ok ⟨1, 10⟩ :=
  validatePagination_idempotent_defaults 3 25 (by decide) (by decide) (by decide)

/-- C10: `sanitizeInput` on any array returns a plain object — not an array —
whose keys are the array's decimal indices in order and whose values are the
recursively sanitized elements; array-valued request fields such as a post's
tags list therefore lose their array structure. -/
theorem sanitizeInput_array_becomes_object (xs : List JVal) :
    sanitizeInput (.jarr xs) =
      .jobj ((xs.map sanitizeInput).enum.map (fun p => (toString p.1, p.2))) ∧
    isJArr (sanitizeInput (.jarr xs)) = false := by
  constructor
  · rw [sanitizeInput, sanitizeElems_eq_map]
  · rw [sanitizeInput]
    rfl

end MernBlog

